import Mathlib

/-!
Shallow embedding of the `binance-bots` trading core: the ledger store
(`src/tradingbot/data_manager.py`), the KPI aggregator
(`src/tradingbot/kpis.py`) and the price-trend decision engine
(`src/tradingbot/bots.py`).  Monetary quantities and prices are embedded
as rationals; Python runtime failures are made explicit with `Except`.
-/

/-- Python-level runtime failures that the embedded code paths can raise. -/
inductive PyErr where
  /-- `TypeError`, e.g. comparing a `float` with `None`. -/
  | typeErr : PyErr
  /-- `KeyError` from a missing dictionary key. -/
  | keyErr : PyErr
  /-- `IndexError` from indexing past the end of a list. -/
  | indexErr : PyErr
  /-- `AttributeError` from accessing a missing attribute/method. -/
  | attributeErr : PyErr
  /-- `sqlite3.ProgrammingError`, e.g. a missing named bind parameter. -/
  | programmingErr : PyErr
  /-- `binance.exceptions.BinanceAPIException` escaping uncaught. -/
  | binanceAPIErr : PyErr
deriving DecidableEq, Repr

/-- The exception type raised by the Binance client wrapper; the bots'
`try/except` blocks catch exactly this. -/
inductive BinanceAPIException where
  | mk : BinanceAPIException
deriving DecidableEq, Repr

/-- An uncaught `BinanceAPIException` seen as a Python-level failure. -/
def liftBinance {α : Type} : Except BinanceAPIException α → Except PyErr α
  | .ok a => .ok a
  | .error _ => .error .binanceAPIErr

/-- Python `list[i]` access: `IndexError` when out of range. -/
def getElemPy {α : Type} (xs : List α) (i : Nat) : Except PyErr α :=
  match xs.get? i with
  | some x => .ok x
  | none => .error .indexErr

/-- Round a rational to the nearest integer, ties to even, mirroring
Python's `round` on the exact value. -/
def roundHalfEven (x : ℚ) : ℤ :=
  if Int.fract x < 1 / 2 then ⌊x⌋
  else if 1 / 2 < Int.fract x then ⌊x⌋ + 1
  else if ⌊x⌋ % 2 = 0 then ⌊x⌋ else ⌊x⌋ + 1

/-- Python's `round(x, 2)`: round to the nearest multiple of `1/100`. -/
def round2 (x : ℚ) : ℚ := (roundHalfEven (x * 100) : ℚ) / 100

namespace TradingDataManager

/-- One row of the `Open` table (`data_manager.py`, `_create_tables`):
`Id INTEGER PRIMARY KEY, BuyDate, BuyAmountUSD, AmountBTC, BuyPrice`. -/
structure OpenPosition where
  id : Nat
  buyDate : Nat
  buyAmountUSD : ℚ
  amountBTC : ℚ
  buyPrice : ℚ
deriving DecidableEq, Repr

/-- One row of the `Close` table.  The SQL schema's columns are
`BuyDate, SellDate, BuyAmountUSD, SellAmountUSD, AmountBTC, BuyPrice,
SellPrice, Profit`; `srcId` is the ghost identity of the `Open` row the
close consumed (the `id` argument `record_sell` used in its
`DELETE FROM Open WHERE Id = ?`), kept in the model to state lifecycle
invariants. -/
structure ClosedTrade where
  srcId : Nat
  buyDate : Nat
  sellDate : Nat
  buyAmountUSD : ℚ
  sellAmountUSD : ℚ
  amountBTC : ℚ
  buyPrice : ℚ
  sellPrice : ℚ
  profit : ℚ
deriving DecidableEq, Repr

/-- A Python value stored in a KPI row (dates are strings, metrics are
numbers). -/
inductive PyVal where
  | str : String → PyVal
  | rat : ℚ → PyVal
  | int : ℤ → PyVal
deriving DecidableEq, Repr

/-- The SQLite database owned by `TradingDataManager`: the `Open`,
`Close` and `KPI` tables, plus the next `INTEGER PRIMARY KEY` value the
`Open` table will assign. -/
structure Store where
  nextId : Nat
  openTable : List OpenPosition
  closeTable : List ClosedTrade
  kpiTable : List (List PyVal)
deriving DecidableEq, Repr

/-- A freshly created database: empty tables, first rowid 1. -/
def emptyStore : Store := ⟨1, [], [], []⟩

/-- The ids currently present in the `Open` table. -/
def openIds (s : Store) : List Nat := s.openTable.map (·.id)

/-- `record_buy`: `INSERT INTO Open (BuyDate, BuyAmountUSD, AmountBTC,
BuyPrice) VALUES (?, ?, ?, ?)` — the store assigns the next id. -/
def record_buy (s : Store) (buy_date : Nat)
    (buy_amount_usd amount_btc buy_price : ℚ) : Store :=
  { s with
    nextId := s.nextId + 1
    openTable := s.openTable ++
      [⟨s.nextId, buy_date, buy_amount_usd, amount_btc, buy_price⟩] }

/-- `record_sell`: `SELECT * FROM Open WHERE Id = ?`; if a row is found,
insert the computed `Close` row (with `profit = sell_amount_usd -
buy_amount_usd`) and `DELETE FROM Open WHERE Id = ?`, in one committed
unit; otherwise do nothing. -/
def record_sell (s : Store) (sell_date : Nat) (id : Nat)
    (sell_amount_usd sell_price : ℚ) : Store :=
  match s.openTable.find? (fun p => p.id == id) with
  | none => s
  | some p =>
    { s with
      openTable := s.openTable.filter (fun q => q.id != id)
      closeTable := s.closeTable ++
        [⟨id, p.buyDate, sell_date, p.buyAmountUSD, sell_amount_usd,
          p.amountBTC, p.buyPrice, sell_price,
          sell_amount_usd - p.buyAmountUSD⟩] }

/-- `get_open_positions`: `SELECT * FROM Open`, returned as dictionaries
with every stored field verbatim. -/
def get_open_positions (s : Store) : List OpenPosition := s.openTable

/-- One dictionary in the list returned by `get_close_positions`; it has
no `Id` key, and its `Profit` value is `round(profit, 2)`. -/
structure ClosedTradeRow where
  buyDate : Nat
  sellDate : Nat
  buyAmountUSD : ℚ
  sellAmountUSD : ℚ
  amountBTC : ℚ
  buyPrice : ℚ
  sellPrice : ℚ
  profit : ℚ
deriving DecidableEq, Repr

/-- `get_close_positions`: `SELECT * FROM Close`, every field returned
verbatim except `Profit`, which is `round(position[8], 2)`. -/
def get_close_positions (s : Store) : List ClosedTradeRow :=
  s.closeTable.map (fun t =>
    ⟨t.buyDate, t.sellDate, t.buyAmountUSD, t.sellAmountUSD, t.amountBTC,
      t.buyPrice, t.sellPrice, round2 t.profit⟩)

/-- The named bind parameters of the `INSERT INTO KPI ... VALUES (:Date,
:TotalProfit, ...)` statement in `insert_kpis`. -/
def kpiParamNames : List String :=
  ["Date", "TotalProfit", "TotalInvestment", "TotalOperations",
   "WinningTrades", "LosingTrades", "AverageProfitPerTrade", "ROI"]

/-- Dictionary lookup on an association list (first binding wins, as in
a Python dict built left to right with distinct keys). -/
def lookupKey (d : List (String × PyVal)) (k : String) : Option PyVal :=
  (d.find? (fun kv => kv.fst == k)).map (·.snd)

/-- `insert_kpis`: binds the dictionary to the statement's named
parameters.  `sqlite3` raises `ProgrammingError` when a named parameter
has no matching key; on success one row is appended to `KPI`. -/
def insert_kpis (s : Store) (kpis : List (String × PyVal)) :
    Except PyErr Store :=
  match kpiParamNames.mapM (lookupKey kpis) with
  | none => .error .programmingErr
  | some row => .ok { s with kpiTable := s.kpiTable ++ [row] }

end TradingDataManager

namespace TradingBotKPIs

open TradingDataManager

/-- `kpis.py` resolves `self.data_manager.get_closed_positions()` on a
`TradingDataManager`, but that class only defines `get_close_positions`;
in Python the attribute lookup raises `AttributeError` on every call. -/
def get_closed_positions_call (_s : Store) :
    Except PyErr (List ClosedTradeRow) :=
  .error .attributeErr

/-- The arithmetic in the body of `get_total_profit`, applied to the
closed-positions listing the call would have to supply: the sum of the
`Profit` values. -/
def total_profit_of (ps : List ClosedTradeRow) : ℚ :=
  (ps.map (·.profit)).sum

/-- The arithmetic in the body of `get_total_investment`: the sum of the
`BuyAmountUSD` values. -/
def total_investment_of (ps : List ClosedTradeRow) : ℚ :=
  (ps.map (·.buyAmountUSD)).sum

/-- The arithmetic in the body of `get_total_operations`: the number of
closed positions. -/
def total_operations_of (ps : List ClosedTradeRow) : Nat := ps.length

/-- The arithmetic in the body of `get_winning_trades`: the number of
closed positions with `Profit > 0`. -/
def winning_trades_of (ps : List ClosedTradeRow) : Nat :=
  (ps.filter (fun p => 0 < p.profit)).length

/-- The arithmetic in the body of `get_losing_trades`: the number of
closed positions with `Profit <= 0`. -/
def losing_trades_of (ps : List ClosedTradeRow) : Nat :=
  (ps.filter (fun p => p.profit ≤ 0)).length

/-- The arithmetic in the body of `get_average_profit_per_trade`:
`total_profit / total_operations if total_operations > 0 else 0`. -/
def average_profit_per_trade_of (ps : List ClosedTradeRow) : ℚ :=
  if 0 < total_operations_of ps then
    total_profit_of ps / (total_operations_of ps : ℚ)
  else 0

/-- The arithmetic in the body of `get_roi_percentage`:
`(total_profit / total_investment) * 100 if total_investment > 0 else 0`. -/
def roi_percentage_of (ps : List ClosedTradeRow) : ℚ :=
  if 0 < total_investment_of ps then
    total_profit_of ps / total_investment_of ps * 100
  else 0

/-- The arithmetic in the body of `calculate_win_rate`:
`(wins / total) * 100`, `0` when there are no closed positions. -/
def win_rate_of (ps : List ClosedTradeRow) : ℚ :=
  if ps.length = 0 then 0
  else ((ps.filter (fun p => 0 < p.profit)).length : ℚ) / (ps.length : ℚ) * 100

/-- The arithmetic in the body of `calculate_total_return`:
`((returned - invested) / invested) * 100`, `0` when nothing invested. -/
def total_return_of (ps : List ClosedTradeRow) : ℚ :=
  if total_investment_of ps = 0 then 0
  else ((ps.map (·.sellAmountUSD)).sum - total_investment_of ps) /
    total_investment_of ps * 100

/-- `get_total_profit` as executed: fetch the listing (which raises
`AttributeError`), then sum the profits. -/
def get_total_profit (s : Store) : Except PyErr ℚ := do
  let ps ← get_closed_positions_call s
  pure (total_profit_of ps)

/-- `get_total_investment` as executed. -/
def get_total_investment (s : Store) : Except PyErr ℚ := do
  let ps ← get_closed_positions_call s
  pure (total_investment_of ps)

/-- `get_total_operations` as executed. -/
def get_total_operations (s : Store) : Except PyErr Nat := do
  let ps ← get_closed_positions_call s
  pure (total_operations_of ps)

/-- `get_winning_trades` as executed. -/
def get_winning_trades (s : Store) : Except PyErr Nat := do
  let ps ← get_closed_positions_call s
  pure (winning_trades_of ps)

/-- `get_losing_trades` as executed. -/
def get_losing_trades (s : Store) : Except PyErr Nat := do
  let ps ← get_closed_positions_call s
  pure (losing_trades_of ps)

/-- `get_average_profit_per_trade` as executed: calls `get_total_profit`
first, so it propagates the same `AttributeError`. -/
def get_average_profit_per_trade (s : Store) : Except PyErr ℚ := do
  let tp ← get_total_profit s
  let ops ← get_total_operations s
  pure (if 0 < ops then tp / (ops : ℚ) else 0)

/-- `get_roi_percentage` as executed. -/
def get_roi_percentage (s : Store) : Except PyErr ℚ := do
  let tp ← get_total_profit s
  let ti ← get_total_investment s
  pure (if 0 < ti then tp / ti * 100 else 0)

/-- `calculate_win_rate` as executed. -/
def calculate_win_rate (s : Store) : Except PyErr ℚ := do
  let ps ← get_closed_positions_call s
  pure (win_rate_of ps)

/-- `calculate_total_return` as executed. -/
def calculate_total_return (s : Store) : Except PyErr ℚ := do
  let ps ← get_closed_positions_call s
  pure (total_return_of ps)

/-- `calculate_unrealized_losses` as executed: with no open positions
the loop body never runs and `(0, 0)` is returned; on the first open
position the body resolves `self.client`, an attribute `TradingBotKPIs`
never defines, raising `AttributeError` (the positions also carry no
`Symbol` key). -/
def calculate_unrealized_losses (s : Store) : Except PyErr (ℚ × Nat) :=
  match get_open_positions s with
  | [] => .ok (0, 0)
  | _ :: _ => .error .attributeErr

/-- The dictionary literal built by `get_performance_metrics`, with the
keys exactly as spelled in the source. -/
def performance_metrics_dict (now : String) (tp ti : ℚ)
    (ops win lose : Nat) (avg roi ul : ℚ) (lpc : Nat) (wr tr : ℚ) :
    List (String × PyVal) :=
  [("date", .str now), ("total_profit_usd", .rat tp),
   ("total_investment_usd", .rat ti), ("total_operations", .int ops),
   ("winning_trades", .int win), ("losing_trades", .int lose),
   ("average_profit_per_trade_usd", .rat avg),
   ("roi_percentage", .rat roi), ("unralized_losses", .rat ul),
   ("losing_positions_count", .int lpc), ("calculate_win_rate", .rat wr),
   ("calculate_total_return", .rat tr)]

/-- `get_performance_metrics` as executed: evaluate each metric in the
order of the dictionary literal, then hand the dictionary to
`insert_kpis`; the result pairs the returned dictionary with the updated
store. -/
def get_performance_metrics (s : Store) (now : String) :
    Except PyErr (List (String × PyVal) × Store) := do
  let tp ← get_total_profit s
  let ti ← get_total_investment s
  let ops ← get_total_operations s
  let win ← get_winning_trades s
  let lose ← get_losing_trades s
  let avg ← get_average_profit_per_trade s
  let roi ← get_roi_percentage s
  let ul ← calculate_unrealized_losses s
  let ul2 ← calculate_unrealized_losses s
  let wr ← calculate_win_rate s
  let tr ← calculate_total_return s
  let kpis := performance_metrics_dict now tp ti ops win lose avg roi
    ul.fst ul2.snd wr tr
  let s2 ← insert_kpis s kpis
  pure (kpis, s2)

end TradingBotKPIs

namespace PriceTrendTradingBot

open TradingDataManager

/-- One fill in the exchange's market-order response (`order["fills"]`
entries with their `qty` and `price`). -/
structure Fill where
  qty : ℚ
  price : ℚ
deriving DecidableEq, Repr

/-- The exchange's market-order response, reduced to the `fills` list,
the only part the bot reads. -/
structure Order where
  fills : List Fill
deriving DecidableEq, Repr

/-- A market-order request the decision engine hands to `execute_order`:
its amount, side, and whether the amount is denominated in USD. -/
structure OrderReq where
  amount : ℚ
  is_buy : Bool
  is_amount_in_usd : Bool
deriving DecidableEq, Repr

/-- The Binance client for one decision cycle, as the bot consumes it.
Each field is one client query; `.error` means the call raises
`BinanceAPIException`.  `klines` is the list of daily close prices
(`float(prices[i][4])`), oldest first; `lotSizeDecimals` is
`-math.log10(step_size)` for the symbol's `LOT_SIZE` filter. -/
structure ExchangeEnv where
  tickerPrice : Except BinanceAPIException ℚ
  klines : Except BinanceAPIException (List ℚ)
  lotSizeDecimals : Except BinanceAPIException ℤ
  orderResult : ℚ → Bool → Except BinanceAPIException Order
  accountInfo : Except BinanceAPIException (List (String × ℚ))
  assetPrice : String → Except BinanceAPIException ℚ

/-- `BinanceBot.round_down`: `math.floor(value * 10**decimals) /
10**decimals`. -/
def round_down (value : ℚ) (decimals : ℤ) : ℚ :=
  (⌊value * (10 : ℚ) ^ decimals⌋ : ℚ) / (10 : ℚ) ^ decimals

/-- `BinanceBot.execute_order`: optionally convert a USD amount to a
base-asset quantity at the ticker price, round down to the lot step and
submit a market order; the surrounding `try/except BinanceAPIException`
turns any client failure into a `None` result. -/
def execute_order (env : ExchangeEnv) (amount : ℚ)
    (is_buy : Bool) (is_amount_in_usd : Bool) : Option Order :=
  let attempt : Except BinanceAPIException Order := do
    let amount1 ←
      if is_amount_in_usd then do
        let price ← env.tickerPrice
        pure (amount / price)
      else pure amount
    let decs ← env.lotSizeDecimals
    env.orderResult (round_down amount1 decs) is_buy
  match attempt with
  | .ok order => some order
  | .error _ => none

/-- `BinanceBot.get_account_balances`: keep assets with a positive free
balance; a non-USDT asset is added with its USD value when a ticker
price is found and the value exceeds 10 (a per-asset ticker failure
skips the asset); USDT is recorded under the key `"USD"`.  The outer
`except BinanceAPIException` returns an empty dictionary. -/
def get_account_balances (env : ExchangeEnv) : List (String × (ℚ × ℚ)) :=
  match env.accountInfo with
  | .error _ => []
  | .ok account =>
    let balances := account.filter (fun ab => 0 < ab.snd)
    balances.foldl
      (fun acc ab =>
        if ab.fst == "USDT" then acc ++ [("USD", (ab.snd, ab.snd))]
        else
          match env.assetPrice (ab.fst ++ "USDT") with
          | .error _ => acc
          | .ok price =>
            if 10 < price * ab.snd then
              acc ++ [(ab.fst, (ab.snd, price * ab.snd))]
            else acc)
      []

/-- `PriceTrendTradingBot._get_minimum_buy_price`: `None` on an empty
position list, otherwise the minimum of the `BuyPrice` values. -/
def _get_minimum_buy_price (positions : List OpenPosition) : Option ℚ :=
  match positions with
  | [] => none
  | _ =>
    match positions.map (·.buyPrice) with
    | [] => none
    | p :: ps => some (ps.foldl min p)

/-- The `self.get_account_balances()["USD"][1]` subexpression of the buy
condition: a `KeyError` when the balances dictionary has no `"USD"` key
(e.g. after the balance query failed and returned `{}`). -/
def usd_balance_entry (env : ExchangeEnv) : Except PyErr ℚ :=
  match (get_account_balances env).find? (fun kv => kv.fst == "USD") with
  | none => .error .keyErr
  | some kv => .ok kv.snd.snd

/-- The buy condition of `compare_and_buy`, with Python's left-to-right
short-circuit evaluation: `price_today * 1.01 < price_yesterday`, then
`price_today * 1.01 < min_buy_price` — a `TypeError` when
`min_buy_price` is `None` — then
`invest_amount_usd < balances["USD"][1]`. -/
def buy_condition (env : ExchangeEnv) (invest_amount_usd : ℚ)
    (min_buy_price : Option ℚ) (price_yesterday price_today : ℚ) :
    Except PyErr Bool :=
  if price_today * (101 / 100) < price_yesterday then
    match min_buy_price with
    | none => .error .typeErr
    | some m =>
      if price_today * (101 / 100) < m then do
        let usd ← usd_balance_entry env
        pure (invest_amount_usd < usd)
      else .ok false
  else .ok false

/-- `PriceTrendTradingBot.compare_and_buy`: fetch the open positions and
their minimum buy price, fetch the last two daily closes (an uncaught
`BinanceAPIException` propagates), evaluate the buy condition, and on
success execute a USD-sized market buy; a truthy order response is
recorded via `record_buy` with `order["fills"][0]["qty"]` and
`order["fills"][0]["price"]`.  The second component lists the
`execute_order` requests issued. -/
def compare_and_buy (env : ExchangeEnv) (invest_amount_usd : ℚ)
    (s : Store) (now : Nat) : Except PyErr (Store × List OrderReq) := do
  let positions := get_open_positions s
  let min_buy_price := _get_minimum_buy_price positions
  let prices ← liftBinance env.klines
  let price_yesterday ← getElemPy prices 0
  let price_today ← getElemPy prices 1
  let cond ← buy_condition env invest_amount_usd min_buy_price
    price_yesterday price_today
  if cond then
    match execute_order env invest_amount_usd true true with
    | some order => do
      let fill0 ← getElemPy order.fills 0
      pure (record_buy s now invest_amount_usd fill0.qty fill0.price,
        [⟨invest_amount_usd, true, true⟩])
    | none => pure (s, [⟨invest_amount_usd, true, true⟩])
  else pure (s, [])

/-- The `for position in open_positions` loop of
`check_and_close_positions`, over the position list fetched before the
loop: a position is offered for sale when `current_price >
position["BuyPrice"] * 1.01`; a truthy order response records the sale
of `position["AmountBTC"]` at `amount * current_price`.  The
accumulator carries the evolving store and the `execute_order` requests
issued. -/
def close_loop (env : ExchangeEnv) (current_price : ℚ) (now : Nat) :
    List OpenPosition → Store × List OrderReq → Store × List OrderReq
  | [], acc => acc
  | position :: rest, acc =>
    if position.buyPrice * (101 / 100) < current_price then
      match execute_order env position.amountBTC false false with
      | some _ =>
        close_loop env current_price now rest
          (record_sell acc.fst now position.id
            (position.amountBTC * current_price) current_price,
            acc.snd ++ [⟨position.amountBTC, false, false⟩])
      | none =>
        close_loop env current_price now rest
          (acc.fst, acc.snd ++ [⟨position.amountBTC, false, false⟩])
    else close_loop env current_price now rest acc

/-- `PriceTrendTradingBot.check_and_close_positions`: fetch the open
positions, fetch the current ticker price (an uncaught
`BinanceAPIException` propagates), then run the sell loop. -/
def check_and_close_positions (env : ExchangeEnv) (s : Store)
    (now : Nat) : Except PyErr (Store × List OrderReq) := do
  let current_price ← liftBinance env.tickerPrice
  pure (close_loop env current_price now (get_open_positions s) (s, []))

end PriceTrendTradingBot

namespace TradingDataManager

/-- One ledger operation: a recorded buy or a recorded sell. -/
inductive Step : Store → Store → Prop
  | buy (s : Store) (now : Nat) (amt btc price : ℚ) :
      Step s (record_buy s now amt btc price)
  | sell (s : Store) (now i : Nat) (amt price : ℚ) :
      Step s (record_sell s now i amt price)

/-- Store states reachable from a fresh database by a sequence of
`record_buy`/`record_sell` operations. -/
inductive Reachable : Store → Prop
  | init : Reachable emptyStore
  | step {s t : Store} : Reachable s → Step s t → Reachable t

/-- The ledger invariant maintained by `record_buy` and `record_sell`:
no closed trade's source id is still open, no source id is closed twice,
open ids are distinct and below the next fresh id, closed source ids are
below the next fresh id, and every closed trade's profit is its sell
amount minus its buy amount. -/
def Inv (s : Store) : Prop :=
  (∀ t ∈ s.closeTable, t.srcId ∉ openIds s) ∧
  (s.closeTable.map (·.srcId)).Nodup ∧
  (openIds s).Nodup ∧
  (∀ i ∈ openIds s, i < s.nextId) ∧
  (∀ t ∈ s.closeTable, t.srcId < s.nextId) ∧
  (∀ t ∈ s.closeTable, t.profit = t.sellAmountUSD - t.buyAmountUSD)

end TradingDataManager

namespace PriceTrendTradingBot

open TradingDataManager

/-- The sell trigger of the loop in `check_and_close_positions`:
`current_price > position["BuyPrice"] * 1.01`. -/
def sell_trigger (current_price : ℚ) (q : OpenPosition) : Bool :=
  q.buyPrice * (101 / 100) < current_price

/-- A position for which the sell loop both triggers and obtains a
truthy order response. -/
def sell_filled (env : ExchangeEnv) (current_price : ℚ)
    (q : OpenPosition) : Bool :=
  sell_trigger current_price q &&
    (execute_order env q.amountBTC false false).isSome

/-- The `Close` row `record_sell` writes for a position sold at
`current_price`: proceeds `amount * current_price`, sell price
`current_price`. -/
def trade_of (current_price : ℚ) (now : Nat) (q : OpenPosition) :
    ClosedTrade :=
  ⟨q.id, q.buyDate, now, q.buyAmountUSD, q.amountBTC * current_price,
    q.amountBTC, q.buyPrice, current_price,
    q.amountBTC * current_price - q.buyAmountUSD⟩

/-- The market-sell request the loop issues for a triggered position:
its full base-asset amount, side sell, denominated in the asset. -/
def req_of (q : OpenPosition) : OrderReq := ⟨q.amountBTC, false, false⟩

/-- The ids of the positions the sell loop closes: those whose trigger
fired and whose market order returned a truthy response. -/
def sold_ids (env : ExchangeEnv) (current_price : ℚ)
    (ps : List OpenPosition) : List Nat :=
  (ps.filter (sell_filled env current_price)).map (·.id)

/-- A concrete exchange snapshot: yesterday's close 110, today's close
98, ticker 98, lot step `10^-5`, every market order filled in one fill
at price 98, a single free balance of 200 USDT. -/
def sampleEnv : ExchangeEnv :=
  ⟨.ok 98, .ok [110, 98], .ok 5, fun q _ => .ok ⟨[⟨q, 98⟩]⟩,
    .ok [("USDT", 200)], fun _ => .error .mk⟩

/-- A concrete exchange snapshot whose market buy is filled in two
partial fills (`0.3` at 100 and `0.2` at 101). -/
def twoFillEnv : ExchangeEnv :=
  ⟨.ok 100, .ok [110, 98], .ok 5,
    fun _ _ => .ok ⟨[⟨3 / 10, 100⟩, ⟨2 / 10, 101⟩]⟩,
    .ok [("USDT", 500)], fun _ => .error .mk⟩

/-- A concrete exchange snapshot where the daily-candles query raises
`BinanceAPIException`. -/
def klinesFailEnv : ExchangeEnv :=
  ⟨.ok 98, .error .mk, .ok 5, fun q _ => .ok ⟨[⟨q, 98⟩]⟩,
    .ok [("USDT", 200)], fun _ => .error .mk⟩

/-- A concrete exchange snapshot at ticker price 120 whose market order
raises `BinanceAPIException` for a quantity of `0.5` and fills any other
quantity in one fill at 120. -/
def sellFailEnv : ExchangeEnv :=
  ⟨.ok 120, .ok [110, 98], .ok 5,
    fun q _ => if q = 1 / 2 then .error .mk else .ok ⟨[⟨q, 120⟩]⟩,
    .ok [("USDT", 200)], fun _ => .error .mk⟩

/-- A concrete exchange snapshot at ticker price 120 where every market
order raises `BinanceAPIException`. -/
def allFailEnv : ExchangeEnv :=
  ⟨.ok 120, .ok [110, 98], .ok 5, fun _ _ => .error .mk,
    .ok [("USDT", 200)], fun _ => .error .mk⟩

/-- A concrete exchange snapshot where the ticker query raises
`BinanceAPIException`. -/
def tickerFailEnv : ExchangeEnv :=
  ⟨.error .mk, .ok [110, 98], .ok 5, fun q _ => .ok ⟨[⟨q, 98⟩]⟩,
    .ok [("USDT", 200)], fun _ => .error .mk⟩

end PriceTrendTradingBot

namespace TradingDataManager

/-- A store holding one open position: 100 USD bought 1 base unit at
price 100 (id 1). -/
def oneOpenStore : Store := record_buy emptyStore 0 100 1 100

/-- A store holding one open position bought at price 200 (id 1). -/
def highBuyStore : Store := record_buy emptyStore 0 100 1 200

/-- A store holding two open positions: id 1 with base amount `0.5`
bought at 100, id 2 with base amount `0.25` bought at 90. -/
def twoOpenStore : Store :=
  record_buy (record_buy emptyStore 0 100 (1 / 2) 100) 0 100 (1 / 4) 90

/-- The store after buying 1 base unit at 100 for 100 USD and selling
it for 103 USD at price 103: one closed trade, no open position. -/
def demoStore : Store := record_sell oneOpenStore 1 1 103 103

end TradingDataManager

namespace TradingDataManager

/-- `record_sell` leaves `nextId` unchanged. -/
theorem record_sell_nextId (s : Store) (now i : Nat) (a p : ℚ) :
    (record_sell s now i a p).nextId = s.nextId := by
  unfold record_sell
  cases s.openTable.find? (fun q => q.id == i) <;> rfl

/-- `record_sell` leaves the KPI table unchanged. -/
theorem record_sell_kpiTable (s : Store) (now i : Nat) (a p : ℚ) :
    (record_sell s now i a p).kpiTable = s.kpiTable := by
  unfold record_sell
  cases s.openTable.find? (fun q => q.id == i) <;> rfl

/-- Unfolding `record_sell` when the id lookup fails. -/
theorem record_sell_eq_of_find_none {s : Store} {i : Nat}
    (hf : s.openTable.find? (fun q => q.id == i) = none)
    (now : Nat) (a p : ℚ) : record_sell s now i a p = s := by
  unfold record_sell
  rw [hf]

/-- Unfolding `record_sell` when the id lookup returns `pos`. -/
theorem record_sell_eq_of_find_some {s : Store} {i : Nat}
    {pos : OpenPosition}
    (hf : s.openTable.find? (fun q => q.id == i) = some pos)
    (now : Nat) (a p : ℚ) :
    record_sell s now i a p =
      { s with
        openTable := s.openTable.filter (fun q => q.id != i)
        closeTable := s.closeTable ++
          [⟨i, pos.buyDate, now, pos.buyAmountUSD, a, pos.amountBTC,
            pos.buyPrice, p, a - pos.buyAmountUSD⟩] } := by
  unfold record_sell
  rw [hf]

/-- `record_sell` on an id that is not open does nothing. -/
theorem record_sell_of_not_mem {s : Store} {i : Nat} (h : i ∉ openIds s)
    (now : Nat) (a p : ℚ) : record_sell s now i a p = s := by
  refine record_sell_eq_of_find_none ?_ now a p
  rw [List.find?_eq_none]
  intro x hx
  simp only [beq_iff_eq]
  intro hxi
  exact h (by simpa [openIds, hxi] using List.mem_map_of_mem (·.id) hx)

/-- In a table with distinct ids, looking up a member's id finds exactly
that member. -/
theorem find_id_of_nodup {l : List OpenPosition}
    (hnd : (l.map (·.id)).Nodup) {x : OpenPosition} (hx : x ∈ l) :
    l.find? (fun q => q.id == x.id) = some x := by
  induction l with
  | nil => cases hx
  | cons y ys ih =>
    rw [List.map_cons, List.nodup_cons] at hnd
    rcases List.mem_cons.mp hx with rfl | hx2
    · exact List.find?_cons_of_pos _ (by simp)
    · have hy : ¬ (y.id == x.id) = true := by
        simp only [beq_iff_eq]
        intro he
        exact hnd.1 (he ▸ List.mem_map_of_mem (·.id) hx2)
      rw [@List.find?_cons_of_neg _ (fun q => q.id == x.id) y ys hy]
      exact ih hnd.2 hx2

/-- Filtering out one id commutes with projecting the ids. -/
theorem openIds_filter (l : List OpenPosition) (i : Nat) :
    (l.filter (fun q => q.id != i)).map (·.id) =
      (l.map (·.id)).filter (fun n => n != i) := by
  rw [List.filter_map]
  rfl

/-- In a table with distinct ids, removing one member's id removes
exactly that member. -/
theorem perm_cons_filter {l : List OpenPosition}
    (hnd : (l.map (·.id)).Nodup) {x : OpenPosition} (hx : x ∈ l) :
    List.Perm l (x :: l.filter (fun q => q.id != x.id)) := by
  induction l with
  | nil => cases hx
  | cons y ys ih =>
    rw [List.map_cons, List.nodup_cons] at hnd
    rcases List.mem_cons.mp hx with rfl | hx2
    · have hall : ys.filter (fun q => q.id != x.id) = ys := by
        rw [List.filter_eq_self]
        intro a ha
        simp only [bne_iff_ne, ne_eq]
        intro he
        exact hnd.1 (he ▸ List.mem_map_of_mem (·.id) ha)
      have hhead : ((x.id != x.id) : Bool) = false := by simp
      have hfil : (x :: ys).filter (fun q => q.id != x.id) = ys := by
        rw [List.filter_cons, hhead]
        simp [hall]
      rw [hfil]
    · have hxy : x.id ≠ y.id := fun he =>
        hnd.1 (he ▸ List.mem_map_of_mem (·.id) hx2)
      have hyx : ((y.id != x.id) : Bool) = true := by
        simp only [bne_iff_ne, ne_eq]
        exact fun h => hxy h.symm
      rw [List.filter_cons, if_pos hyx]
      exact ((ih hnd.2 hx2).cons y).trans (List.Perm.swap x y _)

/-- The fresh store satisfies the ledger invariant. -/
theorem inv_empty : Inv emptyStore := by
  simp [Inv, emptyStore, openIds]

/-- `record_buy` preserves the ledger invariant. -/
theorem Inv.record_buy {s : Store} (h : Inv s) (now : Nat)
    (amt btc price : ℚ) : Inv (TradingDataManager.record_buy s now amt btc price) := by
  obtain ⟨h1, h2, h3, h4, h5, h6⟩ := h
  refine ⟨?_, ?_, ?_, ?_, ?_, ?_⟩
  · intro t ht
    simp only [TradingDataManager.record_buy, openIds, List.map_append,
      List.map_cons, List.map_nil] at ht ⊢
    rw [List.mem_append]
    rintro (hmem | hmem)
    · exact h1 t ht hmem
    · have := h5 t ht
      simp only [List.mem_cons, List.not_mem_nil, or_false] at hmem
      omega
  · exact h2
  · simp only [TradingDataManager.record_buy, openIds, List.map_append,
      List.map_cons, List.map_nil]
    rw [List.nodup_append]
    refine ⟨h3, List.nodup_singleton _, ?_⟩
    intro i hi hj
    simp only [List.mem_singleton] at hj
    have := h4 i hi
    omega
  · intro i hi
    simp only [TradingDataManager.record_buy, openIds, List.map_append,
      List.map_cons, List.map_nil, List.mem_append, List.mem_cons,
      List.not_mem_nil, or_false] at hi
    rcases hi with hi | rfl
    · have := h4 i hi
      simp only [TradingDataManager.record_buy]
      omega
    · simp only [TradingDataManager.record_buy]
      omega
  · intro t ht
    have := h5 t ht
    simp only [TradingDataManager.record_buy]
    omega
  · exact h6

/-- `record_sell` preserves the ledger invariant. -/
theorem Inv.record_sell {s : Store} (h : Inv s) (now i : Nat)
    (a p : ℚ) : Inv (TradingDataManager.record_sell s now i a p) := by
  obtain ⟨h1, h2, h3, h4, h5, h6⟩ := h
  cases hf : s.openTable.find? (fun q => q.id == i) with
  | none =>
    rw [record_sell_eq_of_find_none hf]
    exact ⟨h1, h2, h3, h4, h5, h6⟩
  | some pos =>
    have hmem : pos ∈ s.openTable := List.mem_of_find?_eq_some hf
    have hid : pos.id = i := by simpa using List.find?_some hf
    have hi_open : i ∈ openIds s := hid ▸ List.mem_map_of_mem (·.id) hmem
    rw [record_sell_eq_of_find_some hf]
    refine ⟨?_, ?_, ?_, ?_, ?_, ?_⟩
    · intro t ht
      simp only [List.mem_append, List.mem_singleton] at ht
      simp only [openIds, openIds_filter, List.mem_filter, bne_iff_ne,
        ne_eq, not_and]
      rcases ht with ht | rfl
      · intro hmem2 _
        exact h1 t ht (by simpa [openIds] using hmem2)
      · intro _ hne
        simp at hne
    · simp only [List.map_append, List.map_cons, List.map_nil]
      rw [List.nodup_append]
      refine ⟨h2, List.nodup_singleton _, ?_⟩
      intro j hj hj2
      simp only [List.mem_singleton] at hj2
      subst hj2
      obtain ⟨t, ht, rfl⟩ := List.mem_map.mp hj
      exact h1 t ht hi_open
    · simp only [openIds, openIds_filter]
      exact (h3 : (openIds s).Nodup).filter _
    · intro j hj
      simp only [openIds, openIds_filter, List.mem_filter] at hj
      exact h4 j hj.1
    · intro t ht
      simp only [List.mem_append, List.mem_singleton] at ht
      rcases ht with ht | rfl
      · exact h5 t ht
      · exact hid ▸ h4 pos.id (List.mem_map_of_mem (·.id) hmem)
    · intro t ht
      simp only [List.mem_append, List.mem_singleton] at ht
      rcases ht with ht | rfl
      · exact h6 t ht
      · rfl

/-- Every reachable store satisfies the ledger invariant. -/
theorem reachable_inv {s : Store} (h : Reachable s) : Inv s := by
  induction h with
  | init => exact inv_empty
  | step _ hstep ih =>
    cases hstep with
    | buy now amt btc price => exact ih.record_buy now amt btc price
    | sell now i amt price => exact ih.record_sell now i amt price

end TradingDataManager

namespace PriceTrendTradingBot

open TradingDataManager

/-- Full characterisation of the sell loop over a position list with
distinct ids drawn from the store's open table: the loop removes exactly
the filled positions' rows, appends exactly their close rows in order,
and issues exactly one full-amount sell request per triggered
position. -/
theorem close_loop_spec (env : ExchangeEnv) (pc : ℚ) (now : Nat)
    (ps : List OpenPosition) :
    ∀ (st : Store) (log : List OrderReq),
      (∀ q ∈ ps, q ∈ st.openTable) → (openIds st).Nodup →
      (ps.map (·.id)).Nodup →
      close_loop env pc now ps (st, log) =
        ({ st with
            openTable := st.openTable.filter
              (fun q => !((sold_ids env pc ps).contains q.id))
            closeTable := st.closeTable ++
              (ps.filter (sell_filled env pc)).map (trade_of pc now) },
          log ++ (ps.filter (sell_trigger pc)).map req_of) := by
  induction ps with
  | nil =>
    intro st log _ _ _
    cases st
    simp [close_loop, sold_ids]
  | cons x rest ih =>
    intro st log hsub hnodup hpsnodup
    rw [List.map_cons, List.nodup_cons] at hpsnodup
    have hx_st : x ∈ st.openTable := hsub x (List.mem_cons_self x rest)
    have hrest_sub : ∀ q ∈ rest, q ∈ st.openTable := fun q hq =>
      hsub q (List.mem_cons_of_mem x hq)
    by_cases htrig : x.buyPrice * (101 / 100) < pc
    · have htrigb : sell_trigger pc x = true := by
        simp [sell_trigger, htrig]
      cases horder : execute_order env x.amountBTC false false with
      | none =>
        have hfillb : sell_filled env pc x = false := by
          simp [sell_filled, horder]
        have hstep : close_loop env pc now (x :: rest) (st, log) =
            close_loop env pc now rest (st, log ++ [req_of x]) := by
          simp [close_loop, htrig, horder, req_of]
        rw [hstep, ih st (log ++ [req_of x]) hrest_sub hnodup hpsnodup.2]
        simp [sold_ids, List.filter_cons, hfillb, htrigb, req_of]
      | some o =>
        have hfillb : sell_filled env pc x = true := by
          simp [sell_filled, htrigb, horder]
        have hfind : st.openTable.find? (fun q => q.id == x.id) = some x :=
          find_id_of_nodup hnodup hx_st
        have hst2 : record_sell st now x.id (x.amountBTC * pc) pc =
            { st with
              openTable := st.openTable.filter (fun q => q.id != x.id)
              closeTable := st.closeTable ++ [trade_of pc now x] } :=
          record_sell_eq_of_find_some hfind now _ _
        have hstep : close_loop env pc now (x :: rest) (st, log) =
            close_loop env pc now rest
              (record_sell st now x.id (x.amountBTC * pc) pc,
                log ++ [req_of x]) := by
          simp [close_loop, htrig, horder, req_of]
        rw [hstep, hst2]
        have h1 : ∀ q ∈ rest,
            q ∈ st.openTable.filter (fun q => q.id != x.id) := by
          intro q hq
          rw [List.mem_filter]
          refine ⟨hrest_sub q hq, ?_⟩
          simp only [bne_iff_ne, ne_eq]
          intro he
          exact hpsnodup.1 (he ▸ List.mem_map_of_mem (·.id) hq)
        have h2 : (openIds { st with
            openTable := st.openTable.filter (fun q => q.id != x.id)
            closeTable := st.closeTable ++ [trade_of pc now x] }).Nodup := by
          simpa [openIds, openIds_filter] using
            ((hnodup : (openIds st).Nodup).filter _)
        rw [ih _ (log ++ [req_of x]) h1 h2 hpsnodup.2]
        refine Prod.ext ?_ ?_
        · show ({ st with
            openTable := (st.openTable.filter (fun q => q.id != x.id)).filter
              (fun q => !((sold_ids env pc rest).contains q.id))
            closeTable := (st.closeTable ++ [trade_of pc now x]) ++
              (rest.filter (sell_filled env pc)).map (trade_of pc now) }
            : Store) = _
          have hopen : (st.openTable.filter (fun q => q.id != x.id)).filter
              (fun q => !((sold_ids env pc rest).contains q.id)) =
              st.openTable.filter
                (fun q => !((sold_ids env pc (x :: rest)).contains q.id)) := by
            rw [List.filter_filter]
            refine List.filter_congr ?_
            intro a _
            simp [sold_ids, List.filter_cons, hfillb, bne,
              Bool.not_or, Bool.and_comm]
          have hclose : (st.closeTable ++ [trade_of pc now x]) ++
              (rest.filter (sell_filled env pc)).map (trade_of pc now) =
              st.closeTable ++
                ((x :: rest).filter (sell_filled env pc)).map
                  (trade_of pc now) := by
            simp [List.filter_cons, hfillb]
          rw [hopen, hclose]
        · show (log ++ [req_of x]) ++
              (rest.filter (sell_trigger pc)).map req_of = _
          simp [List.filter_cons, htrigb]
    · have htrigb : sell_trigger pc x = false := by
        simp [sell_trigger, htrig]
      have hfillb : sell_filled env pc x = false := by
        simp [sell_filled, htrigb]
      have hstep : close_loop env pc now (x :: rest) (st, log) =
          close_loop env pc now rest (st, log) := by
        simp [close_loop, htrig]
      rw [hstep, ih st log hrest_sub hnodup hpsnodup.2]
      simp [sold_ids, List.filter_cons, hfillb, htrigb]

/-- `check_and_close_positions` under a successful ticker query, spelt
out with `close_loop_spec`. -/
theorem check_and_close_spec (env : ExchangeEnv) (s : Store) (now : Nat)
    (pc : ℚ) (hpc : env.tickerPrice = .ok pc)
    (hnd : (openIds s).Nodup) :
    check_and_close_positions env s now =
      .ok ({ s with
          openTable := s.openTable.filter
            (fun q => !((sold_ids env pc s.openTable).contains q.id))
          closeTable := s.closeTable ++
            (s.openTable.filter (sell_filled env pc)).map
              (trade_of pc now) },
        (s.openTable.filter (sell_trigger pc)).map req_of) := by
  have h := close_loop_spec env pc now s.openTable s []
    (fun q hq => hq) hnd hnd
  simp only [check_and_close_positions, hpc, liftBinance,
    get_open_positions]
  rw [show (Except.ok pc : Except PyErr ℚ) >>= (fun current_price =>
      pure (close_loop env current_price now s.openTable (s, []))) =
      pure (close_loop env pc now s.openTable (s, [])) from rfl]
  rw [h]
  rfl

/-- A failing daily-candles query escapes `compare_and_buy` uncaught. -/
theorem compare_and_buy_klines_err (env : ExchangeEnv)
    (invest : ℚ) (s : Store) (now : Nat)
    (hk : env.klines = .error .mk) :
    compare_and_buy env invest s now = .error .binanceAPIErr := by
  simp [compare_and_buy, hk, liftBinance, Bind.bind, Except.bind]

/-- `compare_and_buy` reduced to its buy condition, for a candle query
returning closes `[py, pt]`. -/
theorem compare_and_buy_eq (env : ExchangeEnv) (invest : ℚ) (s : Store)
    (now : Nat) (py pt : ℚ) (hk : env.klines = .ok [py, pt]) :
    compare_and_buy env invest s now =
      (buy_condition env invest
          (_get_minimum_buy_price (get_open_positions s)) py pt).bind
        (fun cond =>
          if cond then
            match execute_order env invest true true with
            | some order =>
              (getElemPy order.fills 0).bind (fun fill0 =>
                .ok (record_buy s now invest fill0.qty fill0.price,
                  [⟨invest, true, true⟩]))
            | none => .ok (s, [⟨invest, true, true⟩])
          else .ok (s, [])) := by
  simp only [compare_and_buy, hk, liftBinance, getElemPy, Bind.bind,
    Except.bind, List.get?]
  rfl

/-- When the buy condition is false, `compare_and_buy` issues no order
and leaves the store unchanged. -/
theorem compare_and_buy_of_cond_false (env : ExchangeEnv) (invest : ℚ)
    (s : Store) (now : Nat) (py pt : ℚ)
    (hk : env.klines = .ok [py, pt])
    (hc : buy_condition env invest
      (_get_minimum_buy_price (get_open_positions s)) py pt = .ok false) :
    compare_and_buy env invest s now = .ok (s, []) := by
  rw [compare_and_buy_eq env invest s now py pt hk, hc]
  rfl

/-- When the buy condition raises, `compare_and_buy` propagates the
error. -/
theorem compare_and_buy_of_cond_err (env : ExchangeEnv) (invest : ℚ)
    (s : Store) (now : Nat) (py pt : ℚ) (e : PyErr)
    (hk : env.klines = .ok [py, pt])
    (hc : buy_condition env invest
      (_get_minimum_buy_price (get_open_positions s)) py pt = .error e) :
    compare_and_buy env invest s now = .error e := by
  rw [compare_and_buy_eq env invest s now py pt hk, hc]
  rfl

/-- When the buy condition holds but the market order fails,
`compare_and_buy` records nothing: one buy request was issued and the
store is returned unchanged. -/
theorem compare_and_buy_of_order_none (env : ExchangeEnv) (invest : ℚ)
    (s : Store) (now : Nat) (py pt : ℚ)
    (hk : env.klines = .ok [py, pt])
    (hc : buy_condition env invest
      (_get_minimum_buy_price (get_open_positions s)) py pt = .ok true)
    (ho : execute_order env invest true true = none) :
    compare_and_buy env invest s now = .ok (s, [⟨invest, true, true⟩]) := by
  rw [compare_and_buy_eq env invest s now py pt hk, hc]
  simp only [ho]
  rfl

/-- When the buy condition holds and the market order fills,
`compare_and_buy` records a buy of the first fill's quantity at the
first fill's price. -/
theorem compare_and_buy_of_order_some (env : ExchangeEnv) (invest : ℚ)
    (s : Store) (now : Nat) (py pt : ℚ) (o : Order) (f : Fill)
    (fs : List Fill) (hk : env.klines = .ok [py, pt])
    (hc : buy_condition env invest
      (_get_minimum_buy_price (get_open_positions s)) py pt = .ok true)
    (ho : execute_order env invest true true = some o)
    (hf : o.fills = f :: fs) :
    compare_and_buy env invest s now =
      .ok (record_buy s now invest f.qty f.price,
        [⟨invest, true, true⟩]) := by
  rw [compare_and_buy_eq env invest s now py pt hk, hc]
  simp only [ho, hf, getElemPy, List.get?]
  rfl

/-- A failing ticker query escapes `check_and_close_positions`
uncaught. -/
theorem check_and_close_ticker_err (env : ExchangeEnv) (s : Store)
    (now : Nat) (h : env.tickerPrice = .error .mk) :
    check_and_close_positions env s now = .error .binanceAPIErr := by
  simp [check_and_close_positions, h, liftBinance, Bind.bind, Except.bind]

/-- When every market order raises, `execute_order` for an asset-sized
amount returns `None`. -/
theorem execute_order_none_of_fail (env : ExchangeEnv) (amt : ℚ)
    (b : Bool) (h : ∀ q c, env.orderResult q c = .error .mk) :
    execute_order env amt b false = none := by
  unfold execute_order
  cases hd : env.lotSizeDecimals with
  | error e => simp [hd, Bind.bind, Except.bind, Pure.pure, Except.pure]
  | ok d => simp [hd, h, Bind.bind, Except.bind, Pure.pure, Except.pure]

/-- When every sell order returns `None`, the sell loop leaves the
store untouched. -/
theorem close_loop_fst_of_none (env : ExchangeEnv) (pc : ℚ) (now : Nat)
    (h : ∀ amt, execute_order env amt false false = none) :
    ∀ (ps : List TradingDataManager.OpenPosition)
      (st : TradingDataManager.Store) (log : List OrderReq),
      (close_loop env pc now ps (st, log)).fst = st := by
  intro ps
  induction ps with
  | nil =>
    intro st log
    rfl
  | cons x rest ih =>
    intro st log
    by_cases ht : x.buyPrice * (101 / 100) < pc
    · rw [show close_loop env pc now (x :: rest) (st, log) =
          close_loop env pc now rest
            (st, log ++ [⟨x.amountBTC, false, false⟩]) from by
        simp [close_loop, ht, h x.amountBTC]]
      exact ih st _
    · rw [show close_loop env pc now (x :: rest) (st, log) =
          close_loop env pc now rest (st, log) from by
        simp [close_loop, ht]]
      exact ih st log

end PriceTrendTradingBot

/-- Round-to-nearest never strays further than one half. -/
theorem abs_roundHalfEven_sub_le (y : ℚ) :
    |(roundHalfEven y : ℚ) - y| ≤ 1 / 2 := by
  have hfr0 : (0 : ℚ) ≤ Int.fract y := Int.fract_nonneg y
  have hfr1 : Int.fract y < 1 := Int.fract_lt_one y
  have hfl : (⌊y⌋ : ℚ) = y - Int.fract y := by
    rw [Int.fract]
    ring
  unfold roundHalfEven
  split_ifs with h1 h2 h3
  · rw [abs_sub_comm, hfl, abs_of_nonneg (by linarith)]
    linarith
  · push_cast
    rw [hfl, abs_of_nonneg (by linarith)]
    linarith
  · rw [abs_sub_comm, hfl, abs_of_nonneg (by linarith)]
    linarith
  · push_cast
    rw [hfl, abs_of_nonneg (by linarith)]
    linarith

/-- `round(x, 2)` never strays further than `0.005`. -/
theorem abs_round2_sub_le (x : ℚ) : |round2 x - x| ≤ 1 / 200 := by
  have h := abs_roundHalfEven_sub_le (x * 100)
  have h100 : round2 x - x = ((roundHalfEven (x * 100) : ℚ) - x * 100) / 100 := by
    rw [round2]
    ring
  rw [h100, abs_div, abs_of_pos (by norm_num : (0:ℚ) < 100)]
  linarith

namespace PriceTrendTradingBot

open TradingDataManager

/-- Balance evaluation for an account holding a single USDT balance. -/
theorem get_account_balances_single (env : ExchangeEnv) (b : ℚ)
    (hb : 0 < b) (hacc : env.accountInfo = .ok [("USDT", b)]) :
    get_account_balances env = [("USD", (b, b))] := by
  simp [get_account_balances, hacc, List.filter_cons, hb]

/-- `balances["USD"][1]` for an account holding a single USDT
balance. -/
theorem usd_balance_entry_single (env : ExchangeEnv) (b : ℚ)
    (hb : 0 < b) (hacc : env.accountInfo = .ok [("USDT", b)]) :
    usd_balance_entry env = .ok b := by
  simp [usd_balance_entry, get_account_balances_single env b hb hacc,
    List.find?]

/-- With a downtrend and no open position the buy condition raises
`TypeError`: `price_today * 1.01 < None`. -/
theorem buy_condition_none_type_error (env : ExchangeEnv) (invest : ℚ)
    (py pt : ℚ) (h1 : pt * (101 / 100) < py) :
    buy_condition env invest none py pt = .error .typeErr := by
  simp [buy_condition, h1]

/-- The buy condition evaluates to `true` when the downtrend holds, the
price undercuts the open minimum, and the single USDT balance exceeds
the invest amount. -/
theorem buy_condition_true_of (env : ExchangeEnv) (invest m py pt b : ℚ)
    (h1 : pt * (101 / 100) < py) (h2 : pt * (101 / 100) < m)
    (hb : 0 < b) (hacc : env.accountInfo = .ok [("USDT", b)])
    (hib : invest < b) :
    buy_condition env invest (some m) py pt = .ok true := by
  simp [buy_condition, h1, h2, usd_balance_entry_single env b hb hacc,
    hib, Bind.bind, Except.bind, Pure.pure, Except.pure]

end PriceTrendTradingBot

namespace TradingDataManager

/-- The single open id of `oneOpenStore`. -/
theorem openIds_oneOpenStore : openIds oneOpenStore = [1] := rfl

/-- The single open id of `highBuyStore`. -/
theorem openIds_highBuyStore : openIds highBuyStore = [1] := rfl

/-- The open ids of `twoOpenStore`. -/
theorem openIds_twoOpenStore : openIds twoOpenStore = [1, 2] := rfl

/-- `demoStore` is reachable from the fresh database. -/
theorem reachable_demoStore : Reachable demoStore :=
  .step (.step .init (.buy emptyStore 0 100 1 100))
    (.sell oneOpenStore 1 1 103 103)

end TradingDataManager

section Claims

open TradingDataManager PriceTrendTradingBot TradingBotKPIs

/-- Claim C1: the spec says the buy fires when `Pt * 1.01 < Py`, the
minimum buy price is absent or undercut, and the balance suffices — in
particular with zero open positions the condition should evaluate to
true.  The code instead compares `price_today * 1.01` against `None`
when no position is open, raising an uncaught `TypeError` even with a
genuine downtrend (closes 110 then 98) and a 200 USDT balance against a
100 USD invest amount. -/
theorem buy_evaluation_crashes_without_open_positions :
    compare_and_buy sampleEnv 100 emptyStore 0 = .error .typeErr ∧
    emptyStore.openTable = [] ∧
    sampleEnv.klines = .ok [110, 98] ∧ (98 : ℚ) * (101 / 100) < 110 ∧
    usd_balance_entry sampleEnv = .ok 200 ∧ (100 : ℚ) < 200 := by
  refine ⟨?_, rfl, rfl, by norm_num, ?_, by norm_num⟩
  · exact compare_and_buy_of_cond_err sampleEnv 100 emptyStore 0 110 98
      .typeErr rfl
      (buy_condition_none_type_error sampleEnv 100 110 98 (by norm_num))
  · exact usd_balance_entry_single sampleEnv 200 (by norm_num) rfl

/-- Claim C5: `record_sell` with a position id that is not open is a
no-op: the entire store — open positions, closed trades and KPI rows —
is returned unchanged, and no error is raised. -/
theorem record_sell_unknown_id_is_noop (s : Store) (now i : Nat)
    (a p : ℚ) (h : i ∉ openIds s) : record_sell s now i a p = s :=
  record_sell_of_not_mem h now a p

/-- Witness for C5: closing the unknown id 7 on a store whose only open
id is 1 changes nothing. -/
theorem record_sell_unknown_id_is_noop_witness :
    7 ∉ openIds oneOpenStore ∧
      record_sell oneOpenStore 2 7 50 50 = oneOpenStore :=
  ⟨by decide, record_sell_unknown_id_is_noop oneOpenStore 2 7 50 50
    (by decide)⟩

/-- Claim C8: `get_performance_metrics` never succeeds, let alone
appends a KPI row: its first metric call resolves the nonexistent
`get_closed_positions` and raises `AttributeError`; and even the
dictionary it builds could never be inserted, since its keys (`date`,
`total_profit_usd`, ...) match none of the `:Date`, `:TotalProfit`, ...
parameters `insert_kpis` binds, which raises `ProgrammingError`. -/
theorem performance_metrics_never_appends :
    (∀ (s : Store) (now : String),
      get_performance_metrics s now = .error .attributeErr) ∧
    (∀ (now : String) (tp ti : ℚ) (ops win lose : Nat)
      (avg roi ul : ℚ) (lpc : Nat) (wr tr : ℚ) (s : Store),
      insert_kpis s
        (performance_metrics_dict now tp ti ops win lose avg roi ul lpc
          wr tr) = .error .programmingErr) := by
  constructor
  · intro s now
    rfl
  · intro now tp ti ops win lose avg roi ul lpc wr tr s
    rfl

/-- Claim C3: a closed trade's source id was an open id and is open no
longer; a successful close appends exactly one close row and removes
exactly that position in one step; closes of unknown ids change
nothing; and no id is ever closed twice. -/
theorem closed_trade_lifecycle :
    (∀ s : Store, Reachable s →
      (∀ t ∈ s.closeTable, t.srcId ∉ openIds s) ∧
      (s.closeTable.map (·.srcId)).Nodup) ∧
    (∀ s s2 : Store, Step s s2 → ∀ t ∈ s2.closeTable,
      t ∈ s.closeTable ∨ t.srcId ∈ openIds s) ∧
    (∀ (s : Store) (now i : Nat) (a p : ℚ), (openIds s).Nodup →
      i ∈ openIds s →
      ∃ pos ∈ s.openTable, pos.id = i ∧
        (record_sell s now i a p).closeTable = s.closeTable ++
          [⟨i, pos.buyDate, now, pos.buyAmountUSD, a, pos.amountBTC,
            pos.buyPrice, p, a - pos.buyAmountUSD⟩] ∧
        s.openTable.Perm (pos :: (record_sell s now i a p).openTable) ∧
        (record_sell s now i a p).nextId = s.nextId ∧
        (record_sell s now i a p).kpiTable = s.kpiTable) ∧
    (∀ (s : Store) (now i : Nat) (a p : ℚ), i ∉ openIds s →
      record_sell s now i a p = s) := by
  refine ⟨?_, ?_, ?_, ?_⟩
  · intro s hs
    have h := reachable_inv hs
    exact ⟨h.1, h.2.1⟩
  · intro s s2 hstep t ht
    cases hstep with
    | buy now amt btc price => exact Or.inl ht
    | sell now i amt price =>
      cases hf : s.openTable.find? (fun q => q.id == i) with
      | none =>
        rw [record_sell_eq_of_find_none hf] at ht
        exact Or.inl ht
      | some pos =>
        rw [record_sell_eq_of_find_some hf] at ht
        rcases List.mem_append.mp ht with ht2 | ht2
        · exact Or.inl ht2
        · rw [List.mem_singleton] at ht2
          subst ht2
          refine Or.inr ?_
          have hid : pos.id = i := by simpa using List.find?_some hf
          exact hid ▸
            List.mem_map_of_mem (·.id) (List.mem_of_find?_eq_some hf)
  · intro s now i a p hnd hi
    obtain ⟨pos, hpos, hid⟩ := List.mem_map.mp hi
    subst hid
    have hfind : s.openTable.find? (fun q => q.id == pos.id) = some pos :=
      find_id_of_nodup hnd hpos
    refine ⟨pos, hpos, rfl, ?_, ?_, record_sell_nextId s now pos.id a p,
      record_sell_kpiTable s now pos.id a p⟩
    · rw [record_sell_eq_of_find_some hfind]
    · rw [record_sell_eq_of_find_some hfind]
      exact perm_cons_filter hnd hpos
  · intro s now i a p h
    exact record_sell_of_not_mem h now a p

/-- Witness for C3 at concrete stores: the trade closed in `demoStore`
is no longer open, and closing id 1 on `oneOpenStore` appends exactly
its close row and removes exactly its position. -/
theorem closed_trade_lifecycle_witness :
    (∀ t ∈ demoStore.closeTable, t.srcId ∉ openIds demoStore) ∧
    (∃ pos ∈ oneOpenStore.openTable, pos.id = 1 ∧
      (record_sell oneOpenStore 1 1 103 103).closeTable =
        oneOpenStore.closeTable ++
          [⟨1, pos.buyDate, 1, pos.buyAmountUSD, 103, pos.amountBTC,
            pos.buyPrice, 103, 103 - pos.buyAmountUSD⟩] ∧
      oneOpenStore.openTable.Perm
        (pos :: (record_sell oneOpenStore 1 1 103 103).openTable) ∧
      (record_sell oneOpenStore 1 1 103 103).nextId =
        oneOpenStore.nextId ∧
      (record_sell oneOpenStore 1 1 103 103).kpiTable =
        oneOpenStore.kpiTable) :=
  ⟨(closed_trade_lifecycle.1 demoStore reachable_demoStore).1,
    closed_trade_lifecycle.2.2.1 oneOpenStore 1 1 103 103 (by decide)
      (by decide)⟩

/-- Claim C4: the close row written by `record_sell` stores exactly
`profit = sell_amount_usd - buy_amount_usd`, with the buy amount taken
from the consumed open position and the sell amount from the argument;
consequently every stored closed trade satisfies the profit
invariant. -/
theorem closed_trade_profit_exact :
    (∀ (s : Store) (now i : Nat) (a p : ℚ) (pos : OpenPosition),
      s.openTable.find? (fun q => q.id == i) = some pos →
      (record_sell s now i a p).closeTable = s.closeTable ++
        [⟨i, pos.buyDate, now, pos.buyAmountUSD, a, pos.amountBTC,
          pos.buyPrice, p, a - pos.buyAmountUSD⟩]) ∧
    (∀ s : Store, Reachable s → ∀ t ∈ s.closeTable,
      t.profit = t.sellAmountUSD - t.buyAmountUSD) := by
  constructor
  · intro s now i a p pos hf
    rw [record_sell_eq_of_find_some hf]
  · intro s hs
    exact (reachable_inv hs).2.2.2.2.2

/-- Witness for C4: selling position 1 of `oneOpenStore` for 103 USD
writes the close row with profit `103 - 100`, and every closed trade of
the reachable `demoStore` satisfies the invariant. -/
theorem closed_trade_profit_exact_witness :
    (record_sell oneOpenStore 1 1 103 103).closeTable =
      oneOpenStore.closeTable ++
        [⟨1, 0, 1, 100, 103, 1, 100, 103, 103 - 100⟩] ∧
    (∀ t ∈ demoStore.closeTable,
      t.profit = t.sellAmountUSD - t.buyAmountUSD) :=
  ⟨closed_trade_profit_exact.1 oneOpenStore 1 1 103 103
      ⟨1, 0, 100, 1, 100⟩ rfl,
    closed_trade_profit_exact.2 demoStore reachable_demoStore⟩

/-- Claim C7: every KPI getter of `TradingBotKPIs` raises
`AttributeError` on every store — including the empty trade set —
because it calls the nonexistent `data_manager.get_closed_positions`;
the arithmetic in their bodies otherwise matches the spec: wins are
trades with positive profit, losses the rest (they partition the
trades), and the average/ROI formulas return exactly 0 on a zero
denominator instead of dividing. -/
theorem kpi_getters_crash_but_formulas_match :
    (∀ s : Store, get_winning_trades s = .error .attributeErr) ∧
    (∀ s : Store, get_losing_trades s = .error .attributeErr) ∧
    (∀ s : Store, get_average_profit_per_trade s = .error .attributeErr) ∧
    (∀ s : Store, get_roi_percentage s = .error .attributeErr) ∧
    (∀ ps : List ClosedTradeRow,
      winning_trades_of ps + losing_trades_of ps = ps.length) ∧
    (∀ ps : List ClosedTradeRow, total_operations_of ps = 0 →
      average_profit_per_trade_of ps = 0) ∧
    (∀ ps : List ClosedTradeRow, 0 < total_operations_of ps →
      average_profit_per_trade_of ps =
        total_profit_of ps / (total_operations_of ps : ℚ)) ∧
    (∀ ps : List ClosedTradeRow, total_investment_of ps = 0 →
      roi_percentage_of ps = 0) ∧
    (∀ ps : List ClosedTradeRow, 0 < total_investment_of ps →
      roi_percentage_of ps =
        total_profit_of ps / total_investment_of ps * 100) ∧
    average_profit_per_trade_of [] = 0 ∧ roi_percentage_of [] = 0 := by
  refine ⟨fun s => rfl, fun s => rfl, fun s => rfl, fun s => rfl,
    ?_, ?_, ?_, ?_, ?_, ?_, ?_⟩
  · intro ps
    induction ps with
    | nil => rfl
    | cons x rest ih =>
      by_cases h : 0 < x.profit
      · have h2 : ¬ x.profit ≤ 0 := not_le.mpr h
        simp only [winning_trades_of, losing_trades_of,
          List.filter_cons] at ih ⊢
        simp [h, h2] at ih ⊢
        omega
      · have h2 : x.profit ≤ 0 := not_lt.mp h
        simp only [winning_trades_of, losing_trades_of,
          List.filter_cons] at ih ⊢
        simp [h, h2] at ih ⊢
        omega
  · intro ps h
    simp [average_profit_per_trade_of, h]
  · intro ps h
    simp [average_profit_per_trade_of, h]
  · intro ps h
    simp [roi_percentage_of, h]
  · intro ps h
    simp [roi_percentage_of, h]
  · simp [average_profit_per_trade_of, total_operations_of]
  · simp [roi_percentage_of, total_investment_of]

/-- Witness for C7: the getters crash on the empty store, the zero
cases hold on the empty listing, and the ROI formula divides on a
one-trade listing with investment 100 and profit 3. -/
theorem kpi_getters_crash_witness :
    get_roi_percentage emptyStore = .error .attributeErr ∧
    average_profit_per_trade_of [] = 0 ∧
    roi_percentage_of [(⟨0, 1, 100, 103, 1, 100, 103, 3⟩ :
        ClosedTradeRow)] =
      total_profit_of [⟨0, 1, 100, 103, 1, 100, 103, 3⟩] /
        total_investment_of [⟨0, 1, 100, 103, 1, 100, 103, 3⟩] * 100 :=
  ⟨kpi_getters_crash_but_formulas_match.2.2.2.1 emptyStore,
    kpi_getters_crash_but_formulas_match.2.2.2.2.2.2.2.2.2.1,
    kpi_getters_crash_but_formulas_match.2.2.2.2.2.2.2.2.1 _
      (by norm_num [total_investment_of])⟩

/-- Claim C10: the closed-trade listing returns every stored field
verbatim except `Profit`, which is rounded to 2 decimals; the rounded
profit differs from `SellAmountUSD - BuyAmountUSD` of the same returned
row by at most `0.005` (attained at a stored profit of `0.005`), and
the KPI formulas consume exactly these rounded values. -/
theorem close_listing_rounds_profit_only :
    (∀ s : Store, ∀ r ∈ get_close_positions s, ∃ t ∈ s.closeTable,
      r.buyDate = t.buyDate ∧ r.sellDate = t.sellDate ∧
      r.buyAmountUSD = t.buyAmountUSD ∧
      r.sellAmountUSD = t.sellAmountUSD ∧ r.amountBTC = t.amountBTC ∧
      r.buyPrice = t.buyPrice ∧ r.sellPrice = t.sellPrice ∧
      r.profit = round2 t.profit) ∧
    (∀ x : ℚ, |round2 x - x| ≤ 1 / 200) ∧
    |round2 (1 / 200) - 1 / 200| = 1 / 200 ∧
    (∀ s : Store, Reachable s → ∀ r ∈ get_close_positions s,
      |r.profit - (r.sellAmountUSD - r.buyAmountUSD)| ≤ 1 / 200) ∧
    (∀ s : Store, total_profit_of (get_close_positions s) =
      (s.closeTable.map (fun t => round2 t.profit)).sum) ∧
    (∀ s : Store, winning_trades_of (get_close_positions s) =
      (s.closeTable.filter (fun t => 0 < round2 t.profit)).length) := by
  refine ⟨?_, abs_round2_sub_le, ?_, ?_, ?_, ?_⟩
  · intro s r hr
    obtain ⟨t, ht, rfl⟩ := List.mem_map.mp hr
    exact ⟨t, ht, rfl, rfl, rfl, rfl, rfl, rfl, rfl, rfl⟩
  · have h0 : round2 (1 / 200) = 0 := by
      norm_num [round2, roundHalfEven, Int.fract]
    rw [h0]
    norm_num
  · intro s hs r hr
    obtain ⟨t, ht, rfl⟩ := List.mem_map.mp hr
    have hp : t.profit = t.sellAmountUSD - t.buyAmountUSD :=
      (reachable_inv hs).2.2.2.2.2 t ht
    simpa [hp] using abs_round2_sub_le t.profit
  · intro s
    simp [total_profit_of, get_close_positions, List.map_map]
    rfl
  · intro s
    simp only [winning_trades_of, get_close_positions, List.filter_map,
      List.length_map]
    rfl

/-- Witness for C10: the single listed row of `demoStore` carries the
rounded profit `round2 3` and deviates from its own
`SellAmountUSD - BuyAmountUSD` by at most `0.005`. -/
theorem close_listing_rounds_profit_only_witness :
    (⟨0, 1, 100, 103, 1, 100, 103, round2 (103 - 100)⟩ :
        ClosedTradeRow) ∈ get_close_positions demoStore ∧
    |round2 (103 - 100) - ((103 : ℚ) - 100)| ≤ 1 / 200 := by
  have hmem : (⟨0, 1, 100, 103, 1, 100, 103, round2 (103 - 100)⟩ :
      ClosedTradeRow) ∈ get_close_positions demoStore := by
    simp [get_close_positions, demoStore, oneOpenStore, record_sell,
      record_buy, emptyStore, List.find?]
  refine ⟨hmem, ?_⟩
  simpa using close_listing_rounds_profit_only.2.2.2.1 demoStore
    reachable_demoStore _ hmem

/-- Claim C2: under a successful price query, the sell evaluation
issues a full-base-amount market sell exactly for the open positions
with `Pc > Pb * 1.01` (the issued requests are exactly those positions'
`req_of` rows, in order); each such position whose order fills has its
close recorded with proceeds `amount * Pc` and sell price `Pc` and is
no longer open; and every position at or below the threshold stays in
the open table. -/
theorem sell_evaluation_iff_threshold (env : ExchangeEnv) (s : Store)
    (now : Nat) (pc : ℚ) (hpc : env.tickerPrice = .ok pc)
    (hnd : (openIds s).Nodup) :
    ∃ st log, check_and_close_positions env s now = .ok (st, log) ∧
      log = (s.openTable.filter (sell_trigger pc)).map req_of ∧
      (∀ q ∈ s.openTable, q.buyPrice * (101 / 100) < pc →
        (execute_order env q.amountBTC false false).isSome = true →
          trade_of pc now q ∈ st.closeTable ∧ q.id ∉ openIds st) ∧
      (∀ q ∈ s.openTable, ¬ q.buyPrice * (101 / 100) < pc →
        q ∈ st.openTable) ∧
      (∀ q : OpenPosition,
        (trade_of pc now q).sellAmountUSD = q.amountBTC * pc ∧
        (trade_of pc now q).sellPrice = pc ∧
        (trade_of pc now q).amountBTC = q.amountBTC) := by
  refine ⟨_, _, check_and_close_spec env s now pc hpc hnd, rfl, ?_, ?_,
    fun q => ⟨rfl, rfl, rfl⟩⟩
  · intro q hq htrig hsome
    have hfill : sell_filled env pc q = true := by
      simp [sell_filled, sell_trigger, htrig, hsome]
    constructor
    · exact List.mem_append_right _
        (List.mem_map_of_mem _ (List.mem_filter.mpr ⟨hq, hfill⟩))
    · intro hmem
      simp only [openIds, List.mem_map] at hmem
      obtain ⟨q2, hq2, hid⟩ := hmem
      rw [List.mem_filter] at hq2
      have hnotin : q2.id ∉ sold_ids env pc s.openTable := by
        simpa [sold_ids] using hq2.2
      have hin : q.id ∈ sold_ids env pc s.openTable := by
        simp only [sold_ids]
        exact List.mem_map_of_mem _ (List.mem_filter.mpr ⟨hq, hfill⟩)
      exact hnotin (hid.symm ▸ hin)
  · intro q hq htrig
    rw [List.mem_filter]
    refine ⟨hq, ?_⟩
    suffices h : q.id ∉ sold_ids env pc s.openTable by simpa using h
    intro hmem
    simp only [sold_ids, List.mem_map] at hmem
    obtain ⟨q2, hq2, hid⟩ := hmem
    rw [List.mem_filter] at hq2
    have heq : q2 = q :=
      List.inj_on_of_nodup_map hnd hq2.1 hq hid
    have hfill := hq2.2
    rw [heq] at hfill
    have : sell_trigger pc q = true :=
      (Bool.and_eq_true_iff.mp (by simpa [sell_filled] using hfill)).1
    exact htrig (by simpa [sell_trigger] using this)

/-- Witness for C2 at a concrete input: two open positions (bought at
100 and 90) against a current price of 120, where the order for the
first position fails. -/
theorem sell_evaluation_iff_threshold_witness :
    ∃ st log, check_and_close_positions sellFailEnv twoOpenStore 5 =
        .ok (st, log) ∧
      log = (twoOpenStore.openTable.filter (sell_trigger 120)).map
        req_of ∧
      (∀ q ∈ twoOpenStore.openTable, q.buyPrice * (101 / 100) < 120 →
        (execute_order sellFailEnv q.amountBTC false false).isSome =
            true →
          trade_of 120 5 q ∈ st.closeTable ∧ q.id ∉ openIds st) ∧
      (∀ q ∈ twoOpenStore.openTable, ¬ q.buyPrice * (101 / 100) < 120 →
        q ∈ st.openTable) ∧
      (∀ q : OpenPosition,
        (trade_of 120 5 q).sellAmountUSD = q.amountBTC * 120 ∧
        (trade_of 120 5 q).sellPrice = 120 ∧
        (trade_of 120 5 q).amountBTC = q.amountBTC) :=
  sell_evaluation_iff_threshold sellFailEnv twoOpenStore 5 120 rfl
    (by decide)

/-- Claim C6, counterexample: a `BinanceAPIException` from the
daily-candles price query during buy evaluation is not caught by the
decision engine — `compare_and_buy` propagates it instead of treating
it as "no trade this cycle". -/
theorem exchange_price_failure_escapes :
    compare_and_buy klinesFailEnv 100 oneOpenStore 0 =
      .error .binanceAPIErr ∧
    compare_and_buy klinesFailEnv 100 oneOpenStore 0 ≠
      .ok (oneOpenStore, []) := by
  have h := compare_and_buy_klines_err klinesFailEnv 100 oneOpenStore 0
    rfl
  refine ⟨h, ?_⟩
  rw [h]
  intro hc
  cases hc

/-- Claim C6 as amended: order-execution failures are caught — a failed
buy order leaves the store unchanged, a failed sell order leaves its
position open and does not stop the loop from evaluating and closing
the remaining positions, and with every order failing the sell pass
returns the store untouched — but price-query failures (daily candles
during buy, ticker during sell) propagate uncaught out of the decision
engine; in every case no ledger row is written without a filled
order. -/
theorem exchange_failure_handling_as_implemented (env : ExchangeEnv) :
    (∀ (invest : ℚ) (s : Store) (now : Nat) (py pt : ℚ),
      env.klines = .ok [py, pt] →
      buy_condition env invest
        (_get_minimum_buy_price (get_open_positions s)) py pt =
        .ok true →
      execute_order env invest true true = none →
      compare_and_buy env invest s now =
        .ok (s, [⟨invest, true, true⟩])) ∧
    (∀ (s : Store) (now : Nat) (pc : ℚ), env.tickerPrice = .ok pc →
      (openIds s).Nodup →
      ∃ st log, check_and_close_positions env s now = .ok (st, log) ∧
        log = (s.openTable.filter (sell_trigger pc)).map req_of ∧
        (∀ q ∈ s.openTable,
          execute_order env q.amountBTC false false = none →
          q ∈ st.openTable) ∧
        (∀ q ∈ s.openTable, sell_filled env pc q = true →
          trade_of pc now q ∈ st.closeTable)) ∧
    (∀ (s : Store) (now : Nat) (pc : ℚ), env.tickerPrice = .ok pc →
      (∀ q c, env.orderResult q c = .error .mk) →
      ∃ log, check_and_close_positions env s now = .ok (s, log)) ∧
    (∀ (invest : ℚ) (s : Store) (now : Nat),
      env.klines = .error .mk →
      compare_and_buy env invest s now = .error .binanceAPIErr) ∧
    (∀ (s : Store) (now : Nat), env.tickerPrice = .error .mk →
      check_and_close_positions env s now = .error .binanceAPIErr) := by
  refine ⟨?_, ?_, ?_, ?_, ?_⟩
  · intro invest s now py pt hk hc ho
    exact compare_and_buy_of_order_none env invest s now py pt hk hc ho
  · intro s now pc hpc hnd
    refine ⟨_, _, check_and_close_spec env s now pc hpc hnd, rfl, ?_,
      ?_⟩
    · intro q hq hnone
      rw [List.mem_filter]
      refine ⟨hq, ?_⟩
      suffices h : q.id ∉ sold_ids env pc s.openTable by simpa using h
      intro hmem
      simp only [sold_ids, List.mem_map] at hmem
      obtain ⟨q2, hq2, hid⟩ := hmem
      rw [List.mem_filter] at hq2
      have heq : q2 = q :=
        List.inj_on_of_nodup_map hnd hq2.1 hq hid
      have hfill := hq2.2
      rw [heq] at hfill
      have hsome :=
        (Bool.and_eq_true_iff.mp (by simpa [sell_filled] using hfill)).2
      rw [hnone] at hsome
      cases hsome
    · intro q hq hfill
      exact List.mem_append_right _
        (List.mem_map_of_mem _ (List.mem_filter.mpr ⟨hq, hfill⟩))
  · intro s now pc hpc hfail
    have hnone : ∀ amt, execute_order env amt false false = none :=
      fun amt => execute_order_none_of_fail env amt false hfail
    refine ⟨(close_loop env pc now (get_open_positions s) (s, [])).snd,
      ?_⟩
    have hred : check_and_close_positions env s now =
        .ok (close_loop env pc now (get_open_positions s) (s, [])) := by
      simp [check_and_close_positions, hpc, liftBinance, Bind.bind,
        Except.bind, Pure.pure, Except.pure]
    have hpair : close_loop env pc now (get_open_positions s) (s, []) =
        (s, (close_loop env pc now (get_open_positions s) (s, [])).snd) :=
      Prod.ext
        (close_loop_fst_of_none env pc now hnone (get_open_positions s)
          s []) rfl
    rw [hred, hpair]
  · intro invest s now hk
    exact compare_and_buy_klines_err env invest s now hk
  · intro s now hpc
    exact check_and_close_ticker_err env s now hpc

/-- Witness for the amended C6 at concrete inputs: with every order
failing, the sell pass leaves `twoOpenStore` unchanged; a failing
candles query aborts `compare_and_buy`; a failing ticker query aborts
`check_and_close_positions`. -/
theorem exchange_failure_handling_witness :
    (∃ log, check_and_close_positions allFailEnv twoOpenStore 5 =
      .ok (twoOpenStore, log)) ∧
    compare_and_buy klinesFailEnv 100 twoOpenStore 0 =
      .error .binanceAPIErr ∧
    check_and_close_positions tickerFailEnv twoOpenStore 5 =
      .error .binanceAPIErr :=
  ⟨(exchange_failure_handling_as_implemented allFailEnv).2.2.1
      twoOpenStore 5 120 rfl (fun _ _ => rfl),
    (exchange_failure_handling_as_implemented klinesFailEnv).2.2.2.1
      100 twoOpenStore 0 rfl,
    (exchange_failure_handling_as_implemented tickerFailEnv).2.2.2.2
      twoOpenStore 5 rfl⟩

/-- Claim C9, counterexample: for a buy order filled in two fills
(`0.3` at 100 and `0.2` at 101), the recorded open position stores the
first fill's quantity `0.3`, not the total filled quantity `0.5`. -/
theorem record_buy_first_fill_counterexample :
    compare_and_buy twoFillEnv 100 highBuyStore 1 =
      .ok (record_buy highBuyStore 1 100 (3 / 10) 100,
        [⟨100, true, true⟩]) ∧
    (record_buy highBuyStore 1 100 (3 / 10) 100).openTable =
      highBuyStore.openTable ++ [⟨2, 1, 100, 3 / 10, 100⟩] ∧
    twoFillEnv.orderResult 1 true =
      .ok ⟨[⟨3 / 10, 100⟩, ⟨2 / 10, 101⟩]⟩ ∧
    (([⟨3 / 10, 100⟩, ⟨2 / 10, 101⟩] : List Fill).map Fill.qty).sum =
      1 / 2 ∧
    (3 / 10 : ℚ) ≠ 1 / 2 := by
  refine ⟨?_, rfl, rfl, by norm_num, by norm_num⟩
  apply compare_and_buy_of_order_some twoFillEnv 100 highBuyStore 1 110
    98 ⟨[⟨3 / 10, 100⟩, ⟨2 / 10, 101⟩]⟩ ⟨3 / 10, 100⟩ [⟨2 / 10, 101⟩]
    rfl ?_ ?_ rfl
  · show buy_condition twoFillEnv 100 (some 200) 110 98 = .ok true
    exact buy_condition_true_of twoFillEnv 100 200 110 98 500
      (by norm_num) (by norm_num) (by norm_num) rfl (by norm_num)
  · simp [execute_order, twoFillEnv, Bind.bind, Except.bind, Pure.pure,
      Except.pure]

/-- Claim C9 as amended: on a successful buy the ledger records the
quantity and price of the order's first fill (not the ticker-derived
pre-trade estimate, and not the total over all fills). -/
theorem record_buy_stores_first_fill (env : ExchangeEnv) (invest : ℚ)
    (s : Store) (now : Nat) (py pt : ℚ) (o : Order) (f : Fill)
    (fs : List Fill) (hk : env.klines = .ok [py, pt])
    (hc : buy_condition env invest
      (_get_minimum_buy_price (get_open_positions s)) py pt = .ok true)
    (ho : execute_order env invest true true = some o)
    (hf : o.fills = f :: fs) :
    compare_and_buy env invest s now =
      .ok (record_buy s now invest f.qty f.price,
        [⟨invest, true, true⟩]) ∧
    (record_buy s now invest f.qty f.price).openTable =
      s.openTable ++ [⟨s.nextId, now, invest, f.qty, f.price⟩] :=
  ⟨compare_and_buy_of_order_some env invest s now py pt o f fs hk hc ho
    hf, rfl⟩

/-- Witness for the amended C9: the two-fill order records quantity
`0.3` at price 100 on top of `highBuyStore`. -/
theorem record_buy_stores_first_fill_witness :
    compare_and_buy twoFillEnv 100 highBuyStore 1 =
      .ok (record_buy highBuyStore 1 100 (3 / 10) 100,
        [⟨100, true, true⟩]) ∧
    (record_buy highBuyStore 1 100 (3 / 10) 100).openTable =
      highBuyStore.openTable ++ [⟨2, 1, 100, 3 / 10, 100⟩] :=
  record_buy_stores_first_fill twoFillEnv 100 highBuyStore 1 110 98
    ⟨[⟨3 / 10, 100⟩, ⟨2 / 10, 101⟩]⟩ ⟨3 / 10, 100⟩ [⟨2 / 10, 101⟩] rfl
    (buy_condition_true_of twoFillEnv 100 200 110 98 500 (by norm_num)
      (by norm_num) (by norm_num) rfl (by norm_num))
    (by simp [execute_order, twoFillEnv, Bind.bind, Except.bind,
      Pure.pure, Except.pure])
    rfl

end Claims
